import Mathlib

/-!
Shallow embedding of the ISO9660 reader library vendored in this repository
(`multifile.go`, the sector-image prober, the filesystem/decoder), together
with proofs of the specified properties.

Conventions of the embedding:
* Go byte slices become `List Nat`, every element reduced `% 256` at the point
  where a byte enters a buffer.
* Go `int64` becomes `Int`; `uint8`/`uint16`/`uint32` fields become `Nat`.
* Go errors become explicit constructors of `Iso.Err`; an operation that can
  fail returns an `Option Iso.Err` next to its data, or an `Except`.
* Imperative loops become fuel-indexed recursive functions; the Go loops
  terminate because the underlying medium is finite, and every theorem
  instantiates the fuel with a bound large enough for that medium.
-/

namespace Iso

/-- Error values of the Go code: `io.EOF`, `io.ErrShortBuffer`,
`io.ErrUnexpectedEOF`, `image.ErrFormat`, `os.ErrInvalid`, the two
`fmt.Errorf` format failures of `findVolumes`, the path errors, and the
wrapper `error reading image: e` produced by `NewImage`. -/
inductive Err where
  | eof
  | shortBuffer
  | unexpectedEOF
  | format
  | invalid
  | isDir
  | notDir
  | notExist
  | noPVD
  | badBlockSize
  | readImage (e : Err)
deriving DecidableEq, Repr

/-- Bytes `data off, data (off+1), ..., data (off+n-1)` of a byte source,
each reduced mod 256 (the source stores bytes). -/
def readBytes (data : Nat → Nat) (off : Nat) : Nat → List Nat
  | 0 => []
  | n + 1 => data off % 256 :: readBytes data (off + 1) n

/-- Little-endian 16-bit field at index `i` of a byte slice
(`binary.LittleEndian.Uint16`). -/
def le16 (b : List Nat) (i : Nat) : Nat :=
  b.getD i 0 + 256 * b.getD (i + 1) 0

/-- Little-endian 32-bit field at index `i` of a byte slice
(`binary.LittleEndian.Uint32`). -/
def le32 (b : List Nat) (i : Nat) : Nat :=
  b.getD i 0 + 256 * b.getD (i + 1) 0 + 65536 * b.getD (i + 2) 0 +
    16777216 * b.getD (i + 3) 0

/-- Big-endian 16-bit field at index `i` (`binary.BigEndian.Uint16`). -/
def be16 (b : List Nat) (i : Nat) : Nat :=
  256 * b.getD i 0 + b.getD (i + 1) 0

/-- Big-endian 32-bit field at index `i` (`binary.BigEndian.Uint32`). -/
def be32 (b : List Nat) (i : Nat) : Nat :=
  16777216 * b.getD i 0 + 65536 * b.getD (i + 1) 0 + 256 * b.getD (i + 2) 0 +
    b.getD (i + 3) 0

/-- Signed 64-bit wraparound: the value a Go `int64` holds after an addition
that may overflow. -/
def int64wrap (x : Int) : Int :=
  (x + 9223372036854775808) % 18446744073709551616 - 9223372036854775808

/-- Go `copy(b, b[s:e])`: shift the window `[s, e)` of a buffer to its front;
bytes at positions `≥ e - s` keep their old values. -/
def shiftBuf (b : List Nat) (s e : Nat) : List Nat :=
  ((b.drop s).take (e - s)) ++ b.drop (e - s)

/-- Writing `src` into a buffer starting at position `at0`
(Go `copy(dst[at0:], src)` when `src` fits). -/
def listWrite (dst : List Nat) (at0 : Nat) (src : List Nat) : List Nat :=
  dst.take at0 ++ src ++ dst.drop (at0 + src.length)

end Iso

namespace Iso

/-! ## MultiFile (`multifile.go`)

A `MultiFile` presents an in-order list of opened OS files as one contiguous
buffer.  Each underlying file is modelled by its byte content; Go pointer
identity of `*os.File` values is modelled by the index into `files` (distinct
indices are distinct pointers). -/

structure MultiFile where
  files : List (List Nat)
  offs : List Int
  size : Int
  pos : Int
deriving Repr

/-- One source name passed to `NewMultiFile`: `os.Open` may fail, `f.Stat` may
fail after a successful open, or both succeed yielding a file with the given
content. -/
inductive SourceSpec where
  | openFail
  | statFail
  | ok (content : List Nat)
deriving DecidableEq, Repr

/-- `SourceSpec.isOk s` holds when the source opens and stats successfully. -/
def SourceSpec.isOk : SourceSpec → Prop
  | .ok _ => True
  | _ => False

instance : DecidablePred SourceSpec.isOk := by
  intro s; cases s <;> simp [SourceSpec.isOk] <;> infer_instance

/-- Size contributed by a source (0 for a failing one). -/
def SourceSpec.sizeOf : SourceSpec → Nat
  | .ok c => c.length
  | _ => 0

/-- Outcome of `NewMultiFile`: the constructed value (or `none` on error), the
trace of sources successfully opened (`os.Open` returned a file), and the
trace of files closed by the deferred `r.Close()` cleanup.  Handles are the
source indices. -/
structure BuildOut where
  result : Option MultiFile
  opened : List Nat
  closed : List Nat
deriving Repr

/-- The `for i, name := range name` loop body of `NewMultiFile`.  On any error
the deferred `r.Close()` runs, closing every file stored in `r.files` so far
(`Close` also visits the still-nil tail slots of the preallocated `r.files`,
but closing a nil `*os.File` only returns `os.ErrInvalid`, so those calls are
omitted from the trace).  On a `Stat` failure the just-opened file has not yet
been stored in `r.files`, so it is opened but not closed.  Note that for
`i > 0` the code computes `r.offs[i] = r.offs[i-1] + fi.Size()` with the size
of the *current* file `i`, and checks `r.offs[i] < 0` (int64 overflow). -/
def newMultiFileLoop :
    List SourceSpec → Nat → List (List Nat) → List Int → Int → List Nat → BuildOut
  | [], _, files, offs, size, opened =>
    ⟨some ⟨files, offs, size, 0⟩, opened, []⟩
  | .openFail :: _, _, files, _, _, opened =>
    ⟨none, opened, List.range files.length⟩
  | .statFail :: _, i, files, _, _, opened =>
    ⟨none, opened ++ [i], List.range files.length⟩
  | .ok c :: rest, i, files, offs, size, opened =>
    let opened' := opened ++ [i]
    let files' := files ++ [c]
    let size' := int64wrap (size + c.length)
    let offi : Int := if i = 0 then 0 else int64wrap (offs.getLastD 0 + c.length)
    let offs' := offs ++ [offi]
    if offi < 0 then ⟨none, opened', List.range files'.length⟩
    else newMultiFileLoop rest (i + 1) files' offs' size' opened'

/-- `NewMultiFile` (multifile.go:20). -/
def NewMultiFile (specs : List SourceSpec) : BuildOut :=
  newMultiFileLoop specs 0 [] [] 0 []

/-- `MultiFile.Close` (multifile.go:130): closes every entry of `r.files`;
returns the closed handles. -/
def MultiFile.CloseAll (r : MultiFile) : List Nat :=
  List.range r.files.length

/-- The binary search loop inside `fileAt` (multifile.go:149-157).  The first
argument is structural fuel; every iteration shrinks `hi - lo` by at least
one, so starting the fuel at `hi - lo` reproduces the Go loop exactly (when
the fuel runs out, `lo = hi` and the loop condition has already failed). -/
def fileAtLoop (offs : List Int) (pos : Int) : Nat → Nat → Nat → Nat
  | 0, lo, _ => lo
  | fuel + 1, lo, hi =>
    if lo < hi then
      let mid := lo + (hi - lo) / 2
      if offs.getD mid 0 < pos then fileAtLoop offs pos fuel (mid + 1) hi
      else fileAtLoop offs pos fuel lo mid
    else lo

/-- `MultiFile.fileAt` (multifile.go:144): index of the file the code picks as
backing position `pos`, or `none`. -/
def MultiFile.fileAt (r : MultiFile) (pos : Int) : Option Nat :=
  if r.files.length = 0 ∨ pos < 0 then none
  else
    let hi := r.files.length - 1
    let lo := fileAtLoop r.offs pos hi 0 hi
    let lo := if lo > 0 then lo - 1 else lo
    if r.offs.getD lo 0 > pos then none else some lo

/-- `os.File.ReadAt` on a file with the given content: reads
`min plen (size - off)` bytes at `off`; the error is `io.EOF` exactly when
fewer than `plen` bytes were read (and an invalid-argument error on a
negative offset). -/
def fileReadAt (content : List Nat) (plen : Nat) (off : Int) : List Nat × Option Err :=
  if off < 0 then ([], some .invalid)
  else
    let n := min plen (content.length - off.toNat)
    ((content.drop off.toNat).take plen, if n < plen then some .eof else none)

/-- The retry loop of `MultiFile.ReadAt` (multifile.go:103-126).  `p[n:]` is
modelled by the remaining length `plen - acc.length`; note the code passes the
*global* offset `off` to the per-file `ReadAt`. -/
def multiReadLoop (r : MultiFile) (plen : Nat) :
    Nat → Nat → Int → List Nat → List Nat × Option Err
  | 0, _, _, acc => (acc, none)
  | fuel + 1, idx, off, acc =>
    let (chunk, ferr) := fileReadAt (r.files.getD idx []) (plen - acc.length) off
    let acc' := acc ++ chunk
    match ferr with
    | none => (acc', none)
    | some e =>
      if e ≠ .eof then (acc', some e)
      else if acc'.length = plen then (acc', some .eof)
      else
        let off' := off + chunk.length
        match r.fileAt off' with
        | none => (acc', some .eof)
        | some idx' =>
          if idx' = idx then (acc', some .eof)
          else multiReadLoop r plen fuel idx' off' acc'

/-- `MultiFile.ReadAt` (multifile.go:96): bytes written into `p` and the
returned error. -/
def MultiFile.ReadAt (r : MultiFile) (plen : Nat) (off : Int) (fuel : Nat) :
    List Nat × Option Err :=
  match r.fileAt off with
  | none => ([], some .eof)
  | some idx => multiReadLoop r plen fuel idx off []

/-- The logical concatenation of the sources: what reading `plen` bytes at
`off` of the combined buffer should return. -/
def concatReadAt (files : List (List Nat)) (plen : Nat) (off : Nat) : List Nat :=
  ((files.foldr (· ++ ·) []).drop off).take plen

end Iso

namespace Iso

/-! ## Sector images (first unnamed source file: `Image`, `sectorFormats`,
`NewImage`, `ReadSector`, `NumSectors`, `SectorSize`) -/

def minSectorLength : Nat := 2048
def maxSectorLength : Nat := 2456

/-- Bytes [1,6) of logical sector 16 must equal `"CD001"`. -/
def magicBytes : List Nat := [67, 68, 48, 48, 49]

/-- One candidate sector geometry `{size, offset, start}`. -/
structure sectorFormat where
  size : Int
  offset : Int
  start : Int
deriving DecidableEq, Repr

/-- The fixed, ordered candidate table. -/
def sectorFormats : List sectorFormat :=
  [ ⟨2048, 0, 0⟩,
    ⟨2336, 0, 0⟩,
    ⟨2352, 0, 24⟩,
    ⟨2448, 0, 24⟩,
    ⟨2048, 150 * 2048, 0⟩,
    ⟨2352, 150 * 2048, 24⟩,
    ⟨2448, 150 * 2048, 24⟩,
    ⟨2048, -8, 0⟩,
    ⟨2352, -8, 24⟩,
    ⟨2448, -8, 24⟩ ]

/-- The `Buffer` interface (`io.ReaderAt` with a `Size`): an arbitrary
random-access byte source, given by its byte function and total size. -/
structure Buffer where
  data : Nat → Nat
  size : Nat

/-- Result of a Go `ReadAt`-style call: the count `n` of bytes read, those
bytes, and the returned error.  By construction `n = bytes.length`. -/
structure ReadResult where
  n : Nat
  bytes : List Nat
  err : Option Err

/-- `Buffer.ReadAt` per the `io.ReaderAt` contract realised by Go byte
readers: at a negative offset fail; otherwise read
`min plen (size - off)` bytes, returning `io.EOF` exactly when fewer than
`plen` bytes could be read. -/
def Buffer.readAt (b : Buffer) (plen : Nat) (off : Int) : ReadResult :=
  if off < 0 then ⟨0, [], some .invalid⟩
  else if (b.size : Int) ≤ off then ⟨0, [], some .eof⟩
  else
    let o := off.toNat
    let n := min plen (b.size - o)
    ⟨n, readBytes b.data o n, if n < plen then some .eof else none⟩

/-- A sector image: a buffer plus the geometry selected at probe time. -/
structure Image where
  buf : Buffer
  sector : sectorFormat

/-- `Image.ReadSector`: reads `min (len b) sector.size` bytes at physical
position `lba*size + start + offset`; a read error is returned as-is; then a
destination shorter than the sector size yields `io.ErrShortBuffer`, and
(only otherwise) a count below 2048 yields `io.ErrUnexpectedEOF`. -/
def Image.ReadSector (m : Image) (lba : Int) (blen : Nat) : ReadResult :=
  let len : Nat := min blen m.sector.size.toNat
  let pos : Int := lba * m.sector.size + m.sector.start + m.sector.offset
  let r := m.buf.readAt len pos
  match r.err with
  | some _ => r
  | none =>
    if (blen : Int) < m.sector.size then ⟨r.n, r.bytes, some .shortBuffer⟩
    else if r.n < minSectorLength then ⟨r.n, r.bytes, some .unexpectedEOF⟩
    else r

/-- `Image.NumSectors`: `ceil (size / sectorSize)` (both nonneg in Go). -/
def Image.NumSectors (m : Image) : Nat :=
  let ss := m.sector.size.toNat
  m.buf.size / ss + (if m.buf.size % ss = 0 then 0 else 1)

/-- `Image.SectorSize`. -/
def Image.SectorSize (m : Image) : Int := m.sector.size

/-- The candidate loop of `NewImage`: try each geometry in table order; any
`ReadSector` error aborts the probe (wrapped as `error reading image: e`); a
candidate is accepted when bytes [1,6) of its sector 16 equal the magic. -/
def newImageGo (b : Buffer) : List sectorFormat → Except Err Image
  | [] => .error .format
  | f :: rest =>
    let m : Image := ⟨b, f⟩
    let r := m.ReadSector 16 maxSectorLength
    match r.err with
    | some e => .error (.readImage e)
    | none =>
      if (r.bytes.drop 1).take 5 = magicBytes then .ok m
      else newImageGo b rest

/-- `NewImage`. -/
def NewImage (b : Buffer) : Except Err Image :=
  newImageGo b sectorFormats

/-- The geometry `NewImage` selects for a buffer (data view of the probe,
forgetting the buffer inside the returned `Image`). -/
def probeSector (b : Buffer) : Except Err sectorFormat :=
  (NewImage b).map Image.sector

end Iso

namespace Iso

/-! ## The filesystem decoder (second source file of the `iso9660` package) -/

/-- `path.Clean` of Go's standard library, restricted to the name strings that
occur in this decoder: a name without any `/` is returned unchanged except
that the empty string becomes `"."` (byte 46). -/
def cleanName (s : List Nat) : List Nat :=
  if s = [] then [46] else s

/-- The special name bytes `0x00`/`0x01` denote `"."` (46) and `".."`
(46, 46); applied before `path.Clean`. -/
def specialName (s : List Nat) : List Nat :=
  if s = [0] then [46] else if s = [1] then [46, 46] else s

/-- A decoded directory record (`type directory`). -/
structure directory where
  Siz : Nat
  ExSize : Nat
  LBA : Nat
  Length : Nat
  Time : List Nat
  Flags : Nat
  InterleaveSize : Nat
  InterleaveGap : Nat
  Seq : Nat
  Nam : List Nat
deriving DecidableEq, Repr

/-- The zero value of `directory` (what Go leaves behind when `readDir`
fails and the caller ignores the error). -/
def directory.zero : directory :=
  ⟨0, 0, 0, 0, [0, 0, 0, 0, 0, 0, 0], 0, 0, 0, 0, []⟩

/-- `modeDir`: bit 1 of the flags byte. -/
def directory.IsDir (d : directory) : Bool := d.Flags &&& 2 ≠ 0

/-- `readDir`: decode one directory record from a byte slice.  The guard is
the fallthrough switch: too short for the 34 fixed bytes, too short for the
name, or (for a directory) shorter than the declared record length. -/
def readDir (p : List Nat) : Except Err directory :=
  if p.length < 34 ∨ p.length < 34 + p.getD 32 0 ∨
      (p.getD 25 0 &&& 2 ≠ 0 ∧ p.length < p.getD 0 0) then
    .error .unexpectedEOF
  else
    .ok
      { Siz := p.getD 0 0
        ExSize := p.getD 1 0
        LBA := le32 p 2
        Length := le32 p 10
        Time := (p.drop 18).take 7
        Flags := p.getD 25 0
        InterleaveSize := p.getD 26 0
        InterleaveGap := p.getD 27 0
        Seq := le16 p 28
        Nam := cleanName (specialName ((p.drop 33).take (p.getD 32 0))) }

/-- A decoded path-table record (`type path`). -/
structure path where
  Size : Nat
  ExSize : Nat
  LBA : Nat
  Parent : Nat
  Name : List Nat
deriving DecidableEq, Repr

/-- Byte order selector passed to `readPath` (`binary.ByteOrder`). -/
inductive ByteOrd where
  | le
  | be
deriving DecidableEq, Repr

def ByteOrd.u16 (r : ByteOrd) (b : List Nat) (i : Nat) : Nat :=
  match r with
  | .le => le16 b i
  | .be => be16 b i

def ByteOrd.u32 (r : ByteOrd) (b : List Nat) (i : Nat) : Nat :=
  match r with
  | .le => le32 b i
  | .be => be32 b i

/-- `readPath`: decode one path-table record; the record occupies
`8 + nameLen` bytes plus one pad byte when `nameLen` is odd. -/
def readPath (r : ByteOrd) (b : List Nat) : Except Err path :=
  if b.length = 0 then .error .unexpectedEOF
  else
    let size := 8 + b.getD 0 0 + (if b.getD 0 0 % 2 = 1 then 1 else 0)
    if b.length < size then .error .unexpectedEOF
    else
      .ok
        { Size := size
          ExSize := b.getD 1 0
          LBA := r.u32 b 2
          Parent := r.u16 b 6
          Name := cleanName (specialName ((b.drop 8).take (b.getD 0 0))) }

/-- Decoded primary/supplementary volume descriptor payload. -/
structure primaryVolumeDescriptor where
  BlockSize : Int
  Root : directory
  PathTableSize : Int
  PathTable : Int × Int
deriving DecidableEq, Repr

/-- The zero value of `primaryVolumeDescriptor`. -/
def primaryVolumeDescriptor.zero : primaryVolumeDescriptor :=
  ⟨0, directory.zero, 0, (0, 0)⟩

/-- The decode of the type 1/2 payload in `findVolumes`: block size (LE16 at
128), root record (34 bytes at 156, decode errors ignored), path-table size
(LE32 at 132) and the two path-table LBAs (LE32 at 140, BE32 at 148). -/
def decodePVD (buf : List Nat) : primaryVolumeDescriptor :=
  { BlockSize := le16 buf 128
    Root := match readDir (buf.drop 156) with
      | .ok d => d
      | .error _ => directory.zero
    PathTableSize := le32 buf 132
    PathTable := (le32 buf 140, be32 buf 148) }

/-- The scan loop of `findVolumes` over sectors `16 ≤ sector < NumSectors`.
The fuel is exactly `NumSectors - sector`, so running out of fuel is the
loop condition failing, which yields the could-not-find-primary-volume
format error.  A `ReadSector` error propagates as-is; type 1/2 decodes into
the pvd/svd slot and fails with the invalid-block-size format error when
`BlockSize > SectorSize`; type 255 stops with success; every other type is
skipped.  (The 7-byte `volumeDescriptor` header is decoded from the start of
the sector buffer; only its `Type` byte — byte 0 — is consulted.) -/
def findVolLoop (img : Image) :
    Nat → Int → primaryVolumeDescriptor → primaryVolumeDescriptor →
      Except Err (primaryVolumeDescriptor × primaryVolumeDescriptor)
  | 0, _, _, _ => .error .noPVD
  | fuel + 1, sector, pvd, svd =>
    let r := img.ReadSector sector maxSectorLength
    match r.err with
    | some e => .error e
    | none =>
      let t := r.bytes.getD 0 0
      if t = 1 ∨ t = 2 then
        let p := decodePVD r.bytes
        let pvd' := if t = 1 then p else pvd
        let svd' := if t = 2 then p else svd
        if img.SectorSize < p.BlockSize then .error .badBlockSize
        else findVolLoop img fuel (sector + 1) pvd' svd'
      else if t = 255 then .ok (pvd, svd)
      else findVolLoop img fuel (sector + 1) pvd svd

/-- `findVolumes` (with the descriptor slots it fills in on success). -/
def findVolumes (img : Image) :
    Except Err (primaryVolumeDescriptor × primaryVolumeDescriptor) :=
  findVolLoop img (img.NumSectors - 16) 16 .zero .zero

/-- Type byte (byte 0) of the descriptor read at a given sector. -/
def typeAt (img : Image) (k : Nat) : Nat :=
  (img.ReadSector k maxSectorLength).bytes.getD 0 0

/-- Block-size field of the descriptor read at a given sector. -/
def blockSizeAt (img : Image) (k : Nat) : Int :=
  le16 (img.ReadSector k maxSectorLength).bytes 128

/-- Whether `ReadSector` succeeds at a given sector. -/
def sectorOK (img : Image) (k : Nat) : Prop :=
  (img.ReadSector k maxSectorLength).err = none

instance (img : Image) (k : Nat) : Decidable (sectorOK img k) := by
  unfold sectorOK; infer_instance

end Iso

namespace Iso

/-! ## `buildPaths` -/

/-- The decode-and-refill loop of `buildPaths`.  State: the rolling buffer
`b` (length `2*maxSectorLength`), the window `[s, e)`, the next sector `lba`,
and the byte count `n` consumed so far of the declared path-table size.  On a
decode failure the window is shifted to the front and the next sector is read
into the buffer behind it (a read error silently ends the build); a read's
contribution to the window is clamped to `BlockSize`.  Fuel is a model
artifact: the Go loop terminates because the medium is finite. -/
def buildPathsLoop (img : Image) (pvd : primaryVolumeDescriptor) :
    Nat → Nat → Nat → List Nat → Int → Int → List path → List path
  | 0, _, _, _, _, _, acc => acc
  | fuel + 1, s, e, b, lba, n, acc =>
    if pvd.PathTableSize ≤ n then acc
    else
      let ord : ByteOrd := if pvd.PathTable.1 = 0 then .be else .le
      match readPath ord ((b.drop s).take (e - s)) with
      | .error _ =>
        let b1 := shiftBuf b s e
        let r := img.ReadSector lba (2 * maxSectorLength - (e - s))
        match r.err with
        | some _ => acc
        | none =>
          let nr := min r.n pvd.BlockSize.toNat
          let b2 := listWrite b1 (e - s) r.bytes
          buildPathsLoop img pvd fuel 0 (nr + e - s) b2 (lba + 1) n acc
      | .ok p =>
        let s' := min (s + p.Size) e
        buildPathsLoop img pvd fuel s' e b lba (n + p.Size) (acc ++ [p])

/-- `buildPaths`: start at the little-endian path-table LBA with little-endian
decoding, falling back to the big-endian LBA and byte order exactly when the
little-endian LBA is zero. -/
def buildPaths (img : Image) (pvd : primaryVolumeDescriptor) (fuel : Nat) : List path :=
  let lba := if pvd.PathTable.1 = 0 then pvd.PathTable.2 else pvd.PathTable.1
  buildPathsLoop img pvd fuel 0 0 (List.replicate (2 * maxSectorLength) 0) lba 0 []

end Iso

namespace Iso

/-! ## `File`: directory-entry handles (`ReadAt`, `Readdir`) -/

/-- The persistent directory-scan cursor `dp` of a `File`. -/
structure DirPos where
  buf : List Nat
  start : Nat
  stop : Nat
  lba : Int
  eof : Bool
deriving DecidableEq, Repr

/-- A `File` handle: its directory record and scan cursor (the containing
`FileSystem` is passed to each operation explicitly). -/
structure File where
  fi : directory
  dp : DirPos
  off : Int
deriving DecidableEq, Repr

/-- `makeFile`: fresh handle for a directory record. -/
def makeFile (d : directory) : File :=
  ⟨d, ⟨List.replicate (2 * maxSectorLength) 0, 0, 0, (d.LBA : Int), false⟩, 0⟩

/-- `File.resetDir`: rewind the directory stream (the buffer contents are
left in place; only the window, the LBA and the eof flag are reset). -/
def File.resetDir (f : File) : File :=
  { f with dp := ⟨f.dp.buf, 0, 0, (f.fi.LBA : Int), false⟩ }

/-- The record-collecting loop of `File.Readdir`.  State mirrors the Go
locals `s`, `e`, `lba` plus the per-call record-byte counter `i` and the
collected records.  Returns the records, the error (the named return), and
the final cursor.  Fuel is a model artifact (the Go loop terminates because
the medium is finite). -/
def readdirLoop (img : Image) (pvd : primaryVolumeDescriptor) (fi : directory)
    (count : Int) :
    Nat → Nat → Nat → List Nat → Int → Int → List directory →
      List directory × Option Err × DirPos
  | 0, s, e, b, lba, _, acc => (acc, none, ⟨b, s, e, lba, false⟩)
  | fuel + 1, s, e, b, lba, i, acc =>
    if fi.Length ≠ 0 ∧ (fi.Length : Int) ≤ i then
      (acc, none, ⟨b, s, e, lba, false⟩)
    else
      match readDir ((b.drop s).take (e - s)) with
      | .error _ =>
        let b1 := shiftBuf b s e
        let r := img.ReadSector lba (2 * maxSectorLength - (e - s))
        match r.err with
        | some err => (acc, some err, ⟨b1, s, e, lba, false⟩)
        | none =>
          let nr := min r.n pvd.BlockSize.toNat
          let b2 := listWrite b1 (e - s) r.bytes
          readdirLoop img pvd fi count fuel 0 (nr + e - s) b2 (lba + 1) i acc
      | .ok d =>
        if d.Siz = 0 then
          if acc = [] then
            (acc, some .eof, ⟨b, 0, 0, (fi.LBA : Int), false⟩)
          else (acc, none, ⟨b, s, e, lba, true⟩)
        else
          let s' := min (s + d.Siz) e
          let acc' := acc ++ [d]
          if 0 < count ∧ count ≤ (acc'.length : Int) then
            (acc', none, ⟨b, s', e, lba, false⟩)
          else readdirLoop img pvd fi count fuel s' e b lba (i + d.Siz) acc'

/-- `File.Readdir`: fails with not-a-directory on a plain file; with the eof
flag set it resets the stream and reports end-of-data; otherwise it runs the
collecting loop from the saved cursor. -/
def File.Readdir (img : Image) (pvd : primaryVolumeDescriptor) (f : File)
    (count : Int) (fuel : Nat) : List directory × Option Err × File :=
  if ¬ f.fi.IsDir then ([], some .notDir, f)
  else if f.dp.eof then ([], some .eof, f.resetDir)
  else
    let (acc, err, dp) :=
      readdirLoop img pvd f.fi count fuel f.dp.start f.dp.stop f.dp.buf f.dp.lba 0 []
    (acc, err, { f with dp := dp })

/-- The sector-by-sector copy loop of `File.ReadAt`.  `doff` is the (already
checked nonnegative) read offset, `plen` the destination length; state is the
current `lba`, the intra-block start `s`, the count `n` of bytes already
copied, and those bytes.  A `ReadSector` failure breaks out of the loop, and
because the Go code shadows the named error return inside the loop, the
function still returns the bytes with a nil error; so the loop result is just
the byte list.  Fuel is a model artifact (the Go loop terminates because
`ReadSector` eventually fails past the end of the finite medium). -/
def fileReadLoop (img : Image) (pvd : primaryVolumeDescriptor) (fi : directory)
    (plen doff : Nat) : Nat → Int → Nat → Nat → List Nat → List Nat
  | 0, _, _, _, acc => acc
  | fuel + 1, lba, s, n, acc =>
    let r := img.ReadSector lba (2 * maxSectorLength)
    match r.err with
    | some _ => acc
    | none =>
      let e := min r.n pvd.BlockSize.toNat
      let rem : Int := (fi.Length : Int) - (doff + n)
      let e := if rem < (e : Int) - (s : Int) then s + rem.toNat else e
      let b := (r.bytes.drop s).take (e - s)
      let m := min (plen - n) b.length
      let acc' := acc ++ b.take (plen - n)
      if plen ≤ n + m ∨ (fi.Length : Int) ≤ (doff : Int) + m then acc'
      else fileReadLoop img pvd fi plen doff fuel (lba + 1) 0 (n + m) acc'

/-- `File.ReadAt`: is-a-directory on a directory handle; end-of-data at an
offset at or past the declared length; invalid on a negative offset; then the
copy loop starting at block `LBA + off / BlockSize`, intra-block offset
`off % BlockSize`. -/
def File.ReadAt (img : Image) (pvd : primaryVolumeDescriptor) (fi : directory)
    (plen : Nat) (off : Int) (fuel : Nat) : Except Err (List Nat) :=
  if fi.IsDir then .error .isDir
  else if (fi.Length : Int) ≤ off then .error .eof
  else if off < 0 then .error .invalid
  else
    let bs := pvd.BlockSize.toNat
    let doff := off.toNat
    .ok (fileReadLoop img pvd fi plen doff fuel ((fi.LBA : Int) + (doff / bs : Nat))
      (doff % bs) 0 [])

/-- The bytes a file entry holding `Length` bytes starting at block `LBA`
denotes on a medium with byte function `data` and 2048-byte blocks. -/
def entryContent (data : Nat → Nat) (LBA Length : Nat) : List Nat :=
  readBytes data (LBA * 2048) Length

end Iso

namespace Iso

/-! ## Concrete media used by the tests of the individual claims -/

/-- C1: two 3-byte sources. -/
def c1specs : List SourceSpec := [.ok [10, 11, 12], .ok [20, 21, 22]]

/-- C1: the `MultiFile` that `NewMultiFile c1specs` builds. -/
def c1mf : MultiFile := ⟨[[10, 11, 12], [20, 21, 22]], [0, 3], 6, 0⟩

/-- C2: byte offset of logical sector 16 for each of the ten candidate
geometries (`16*size + start + offset`). -/
def c2posList : List Nat :=
  [32768, 37376, 37656, 39192, 339968, 344856, 346392, 32760, 37648, 39184]

/-- C2: a byte function that is zero except for the magic `"CD001"` at
bytes `[p+1, p+6)`. -/
def c2data (p : Nat) : Nat → Nat := fun k =>
  if k = p + 1 then 67 else if k = p + 2 then 68 else if k = p + 3 then 48
  else if k = p + 4 then 48 else if k = p + 5 then 49 else 0

/-- C2: a synthetic 350000-byte buffer carrying the magic exactly at logical
sector 16 of geometry `i` (every candidate's sector-16 read lies inside the
buffer, so the probe loop reaches every candidate). -/
def c2buf (i : Nat) : Buffer := ⟨c2data (c2posList.getD i 0), 350000⟩

/-- C3: an arbitrary content function and the entry/volume fixtures of the
witness. -/
def c3data : Nat → Nat := fun k => k * 7 + 3

def c3pvd : primaryVolumeDescriptor := ⟨2048, directory.zero, 0, (0, 0)⟩

def c3fi : directory := ⟨0, 0, 1, 3000, [0, 0, 0, 0, 0, 0, 0], 0, 0, 0, 0, []⟩

/-- C4: medium bytes.  Sector 20 (bytes 40960..) holds, in its first
64-byte logical block, record A (40 bytes, name `FILE`) followed by the
first 24 bytes of record B (40 bytes, name `DATA`); record B continues in
the first block of sector 21 (bytes 43008..), whose byte 16 starts the
zero-size end-of-directory marker.  Sector 25 (bytes 51200..) is all zeros:
a directory whose very first record is the marker. -/
def c4data : Nat → Nat := fun k =>
  if k = 40960 then 40
  else if k = 40960 + 32 then 4
  else if 40960 + 33 ≤ k ∧ k < 40960 + 37 then [70, 73, 76, 69].getD (k - 40993) 0
  else if k = 41000 then 40
  else if k = 43008 + 8 then 4
  else if 43008 + 9 ≤ k ∧ k < 43008 + 13 then [68, 65, 84, 65].getD (k - 43017) 0
  else 0

def c4img : Image := ⟨⟨c4data, 61440⟩, ⟨2048, 0, 0⟩⟩

/-- C4: a volume with 64-byte logical blocks. -/
def c4pvd : primaryVolumeDescriptor := ⟨64, directory.zero, 0, (0, 0)⟩

/-- C4: the record of the directory whose extent starts at sector 20 (as
`buildCache` makes them: length 0, directory flag set). -/
def c4dir : directory := ⟨0, 0, 20, 0, [0, 0, 0, 0, 0, 0, 0], 2, 0, 0, 0, [46]⟩

/-- C4: a directory whose extent (sector 25) starts with the marker. -/
def c4dirEmpty : directory := ⟨0, 0, 25, 0, [0, 0, 0, 0, 0, 0, 0], 2, 0, 0, 0, [46]⟩

/-- C4: the two records listed in `c4dir`. -/
def c4recA : directory :=
  ⟨40, 0, 0, 0, [0, 0, 0, 0, 0, 0, 0], 0, 0, 0, 0, [70, 73, 76, 69]⟩

def c4recB : directory :=
  ⟨40, 0, 0, 0, [0, 0, 0, 0, 0, 0, 0], 0, 0, 0, 0, [68, 65, 84, 65]⟩

/-- C4: first enumeration call on a fresh handle. -/
def c4call1 : List directory × Option Err × File :=
  File.Readdir c4img c4pvd (makeFile c4dir) (-1) 20

/-- C4: second call, from the handle the first call returned. -/
def c4call2 : List directory × Option Err × File :=
  File.Readdir c4img c4pvd c4call1.2.2 (-1) 20

/-- C4: third call, from the handle the second call returned. -/
def c4call3 : List directory × Option Err × File :=
  File.Readdir c4img c4pvd c4call2.2.2 (-1) 20

/-- C4: a directory handle whose scan cursor has the eof flag set. -/
def c4fEof : File := ⟨c4dir, ⟨[], 0, 0, 20, true⟩, 0⟩

/-- C6: path table with 16-byte logical blocks at sector 5, little-endian
copy.  Record 1 (10 bytes: name `A`, LBA 9, parent 1, one pad byte) fills
bytes 0..9 of the first block; record 2 (12 bytes: name `BCD`, LBA 8,
parent 1, pad) starts at byte 10 and straddles into the first block of
sector 6 (bytes 12288..). -/
def c6data : Nat → Nat := fun k =>
  if 10240 ≤ k ∧ k < 10256 then
    [1, 7, 9, 0, 0, 0, 1, 0, 65, 0, 3, 0, 8, 0, 0, 0].getD (k - 10240) 0
  else if 12288 ≤ k ∧ k < 12294 then
    [1, 0, 66, 67, 68, 0].getD (k - 12288) 0
  else 0

def c6img : Image := ⟨⟨c6data, 40960⟩, ⟨2048, 0, 0⟩⟩

/-- C6: little-endian path-table LBA 5 (the big-endian copy, 7, points at
zeros and must be ignored because the little-endian copy is nonzero). -/
def c6pvd : primaryVolumeDescriptor := ⟨16, directory.zero, 22, (5, 7)⟩

/-- C6: the same two records encoded big-endian, with the little-endian
path-table LBA zero so the decoder must fall back to the big-endian copy. -/
def c6dataBE : Nat → Nat := fun k =>
  if 10240 ≤ k ∧ k < 10256 then
    [1, 7, 0, 0, 0, 9, 0, 1, 65, 0, 3, 0, 0, 0, 0, 8].getD (k - 10240) 0
  else if 12288 ≤ k ∧ k < 12294 then
    [0, 1, 66, 67, 68, 0].getD (k - 12288) 0
  else 0

def c6imgBE : Image := ⟨⟨c6dataBE, 40960⟩, ⟨2048, 0, 0⟩⟩

def c6pvdBE : primaryVolumeDescriptor := ⟨16, directory.zero, 22, (0, 5)⟩

/-- C6: the two decoded records. -/
def c6p1 : path := ⟨10, 7, 9, 1, [65]⟩

def c6p2 : path := ⟨12, 0, 8, 1, [66, 67, 68]⟩

/-- C5: a medium whose sector 16 is a primary descriptor with block size
2048 and whose sector 17 is the terminator. -/
def c5data : Nat → Nat := fun k =>
  if k = 32768 then 1
  else if k = 32768 + 129 then 8
  else if k = 34816 then 255
  else 0

def c5img : Image := ⟨⟨c5data, 36864⟩, ⟨2048, 0, 0⟩⟩

/-- C7: a medium that ends 1000 bytes into logical sector 16 of the plain
2048-byte geometry. -/
def c7img : Image := ⟨⟨fun _ => 0, 33768⟩, ⟨2048, 0, 0⟩⟩

end Iso

namespace Iso

/-! ## Claim theorems -/

/-- C1: `MultiFile.ReadAt` does not return the bytes of the logical
concatenation of the sources.  For the `MultiFile` built from the two
sources `[10,11,12]` and `[20,21,22]`, reading 2 bytes at offset 4 must
return `[21,22]` by the claim, but the code returns no bytes and end-of-data:
`fileAt` maps offset 4 (inside the second source) to the first source, and
the per-source read is issued at the global offset 4 instead of the local
offset 1, so it immediately reports end-of-data. -/
theorem c1_multifile_readAt_bug :
    (NewMultiFile c1specs).result = some c1mf ∧
    c1mf.ReadAt 2 4 10 = ([], some .eof) ∧
    concatReadAt c1mf.files 2 4 = [21, 22] :=
  ⟨rfl, rfl, rfl⟩

/-- C2: probing a synthetic buffer laid out with geometry `i` of the
ten-entry candidate table selects exactly that geometry (the magic `"CD001"`
sits at bytes [1,6) of that geometry's logical sector 16 and nowhere else),
and probing a buffer without the magic anywhere fails with the format
error.  The final conjunct pins down the fixed priority order of the
candidate table. -/
theorem c2_probe_selects_geometry :
    probeSector (c2buf 0) = .ok ⟨2048, 0, 0⟩ ∧
    probeSector (c2buf 1) = .ok ⟨2336, 0, 0⟩ ∧
    probeSector (c2buf 2) = .ok ⟨2352, 0, 24⟩ ∧
    probeSector (c2buf 3) = .ok ⟨2448, 0, 24⟩ ∧
    probeSector (c2buf 4) = .ok ⟨2048, 150 * 2048, 0⟩ ∧
    probeSector (c2buf 5) = .ok ⟨2352, 150 * 2048, 24⟩ ∧
    probeSector (c2buf 6) = .ok ⟨2448, 150 * 2048, 24⟩ ∧
    probeSector (c2buf 7) = .ok ⟨2048, -8, 0⟩ ∧
    probeSector (c2buf 8) = .ok ⟨2352, -8, 24⟩ ∧
    probeSector (c2buf 9) = .ok ⟨2448, -8, 24⟩ ∧
    probeSector ⟨fun _ => 0, 350000⟩ = .error .format ∧
    sectorFormats = [⟨2048, 0, 0⟩, ⟨2336, 0, 0⟩, ⟨2352, 0, 24⟩, ⟨2448, 0, 24⟩,
      ⟨2048, 150 * 2048, 0⟩, ⟨2352, 150 * 2048, 24⟩, ⟨2448, 150 * 2048, 24⟩,
      ⟨2048, -8, 0⟩, ⟨2352, -8, 24⟩, ⟨2448, -8, 24⟩] :=
  ⟨rfl, rfl, rfl, rfl, rfl, rfl, rfl, rfl, rfl, rfl, rfl, rfl⟩

set_option maxRecDepth 40000 in
/-- C4: the zero-size record is the end-of-directory marker.  First, in
general, a call on any directory handle whose eof flag is set returns no
records, end-of-data, and the handle reset to the start of the directory.
Second, on the concrete directory `c4dir` (records A, B, then the marker,
with B straddling a block boundary): the first call returns `[A, B]` with no
error and the eof flag set; the second call returns end-of-data with the
cursor reset; the third call returns the same sequence from the beginning;
and on a directory whose first record is the marker, the call returns
end-of-data with zero records and the cursor reset to the directory start. -/
theorem c4_readdir_marker_and_restart :
    (∀ (img : Image) (pvd : primaryVolumeDescriptor) (f : File) (count : Int)
      (fuel : Nat), f.fi.IsDir = true → f.dp.eof = true →
      File.Readdir img pvd f count fuel = ([], some .eof, f.resetDir)) ∧
    c4call1.1 = [c4recA, c4recB] ∧
    c4call1.2.1 = none ∧
    c4call1.2.2.dp.eof = true ∧
    c4call2.1 = [] ∧
    c4call2.2.1 = some .eof ∧
    c4call2.2.2.dp.start = 0 ∧ c4call2.2.2.dp.stop = 0 ∧
    c4call2.2.2.dp.lba = 20 ∧ c4call2.2.2.dp.eof = false ∧
    c4call3.1 = [c4recA, c4recB] ∧
    (File.Readdir c4img c4pvd (makeFile c4dirEmpty) (-1) 20).1 = [] ∧
    (File.Readdir c4img c4pvd (makeFile c4dirEmpty) (-1) 20).2.1 = some .eof ∧
    (File.Readdir c4img c4pvd (makeFile c4dirEmpty) (-1) 20).2.2.dp.start = 0 ∧
    (File.Readdir c4img c4pvd (makeFile c4dirEmpty) (-1) 20).2.2.dp.stop = 0 ∧
    (File.Readdir c4img c4pvd (makeFile c4dirEmpty) (-1) 20).2.2.dp.lba = 25 ∧
    (File.Readdir c4img c4pvd (makeFile c4dirEmpty) (-1) 20).2.2.dp.eof = false := by
  refine ⟨?_, by decide, rfl, rfl, rfl, rfl, rfl, rfl, rfl, rfl, by decide,
    rfl, rfl, rfl, rfl, rfl, rfl⟩
  intro img pvd f count fuel hdir heof
  simp [File.Readdir, hdir, heof]

/-- C4 witness: the general branch of the theorem applied to a concrete
directory handle with the eof flag set. -/
theorem c4_readdir_marker_and_restart_witness :
    File.Readdir c4img c4pvd c4fEof (-1) 20 = ([], some .eof, c4fEof.resetDir) :=
  c4_readdir_marker_and_restart.1 c4img c4pvd c4fEof (-1) 20 rfl rfl

/-- C6: the path table is decoded from the little-endian LBA with
little-endian fields when that LBA is nonzero (the big-endian copy being
ignored), and from the big-endian LBA with big-endian fields exactly when
the little-endian LBA is zero; a decoded record occupies `8 + nameLen` bytes
plus a pad byte when `nameLen` is odd; records are accumulated across a
sector boundary through the rolling buffer until the declared path-table
size (22 bytes here) is consumed.  The first conjunct is the general record
size fact; the other two decode the same two records (the second of which
straddles a block boundary) from the little-endian and the fallback
big-endian layout. -/
theorem c6_buildPaths_endianness_and_size :
    (∀ (r : ByteOrd) (b : List Nat) (p : path), readPath r b = .ok p →
      p.Size = 8 + b.getD 0 0 + (if b.getD 0 0 % 2 = 1 then 1 else 0)) ∧
    buildPaths c6img c6pvd 50 = [c6p1, c6p2] ∧
    buildPaths c6imgBE c6pvdBE 50 = [c6p1, c6p2] := by
  refine ⟨?_, by decide, by decide⟩
  intro r b p h
  simp only [readPath] at h
  split_ifs at h <;>
    first
      | exact Except.noConfusion h
      | (injection h with h'; rw [← h']; simp_all [List.getD])

/-- C6 witness: the record-size branch applied to a concrete decode (the
3-byte odd-length name `BCD`, whose record has one pad byte: size 12). -/
theorem c6_buildPaths_endianness_and_size_witness :
    c6p2.Size = 8 + ([3, 0, 8, 0, 0, 0, 1, 0, 66, 67, 68, 0] : List Nat).getD 0 0 +
      (if ([3, 0, 8, 0, 0, 0, 1, 0, 66, 67, 68, 0] : List Nat).getD 0 0 % 2 = 1
        then 1 else 0) :=
  c6_buildPaths_endianness_and_size.1 .le [3, 0, 8, 0, 0, 0, 1, 0, 66, 67, 68, 0]
    c6p2 rfl

/-- Length of a byte run. -/
theorem readBytes_length (data : Nat → Nat) :
    ∀ (n off : Nat), (readBytes data off n).length = n := by
  intro n
  induction n with
  | zero => intro off; rfl
  | succ m ih => intro off; simp [readBytes, ih]

/-- A byte run splits at any point. -/
theorem readBytes_add (data : Nat → Nat) :
    ∀ (a off b : Nat),
      readBytes data off (a + b) = readBytes data off a ++ readBytes data (off + a) b := by
  intro a
  induction a with
  | zero => intro off b; simp [readBytes]
  | succ m ih =>
    intro off b
    have h1 : m + 1 + b = (m + b) + 1 := by omega
    rw [h1]
    show data off % 256 :: readBytes data (off + 1) (m + b) = _
    rw [ih (off + 1) b]
    simp [readBytes]
    rw [show off + 1 + m = off + (m + 1) by omega]

/-- Dropping from a byte run shifts its offset. -/
theorem readBytes_drop (data : Nat → Nat) :
    ∀ (k n off : Nat), (readBytes data off n).drop k = readBytes data (off + k) (n - k) := by
  intro k
  induction k with
  | zero => intro n off; simp
  | succ m ih =>
    intro n off
    match n with
    | 0 => simp [readBytes]
    | j + 1 =>
      show (readBytes data (off + 1) j).drop m = _
      rw [ih j (off + 1)]
      rw [show off + 1 + m = off + (m + 1) by omega,
        show j - m = j + 1 - (m + 1) by omega]

/-- Taking from a byte run truncates its length. -/
theorem readBytes_take (data : Nat → Nat) :
    ∀ (k n off : Nat), (readBytes data off n).take k = readBytes data off (min k n) := by
  intro k
  induction k with
  | zero => intro n off; simp [readBytes]
  | succ m ih =>
    intro n off
    match n with
    | 0 => simp [readBytes]
    | j + 1 =>
      show data off % 256 :: (readBytes data (off + 1) j).take m = _
      rw [ih j (off + 1)]
      rw [show min (m + 1) (j + 1) = min m j + 1 by omega]
      rfl

/-- `ReadSector` with the plain 2048-byte geometry and the 2-sector buffer
`File` passes: a full in-range read returns the sector's bytes. -/
theorem readSector_plain (data : Nat → Nat) (size lba : Nat)
    (h : (lba + 1) * 2048 ≤ size) :
    Image.ReadSector ⟨⟨data, size⟩, ⟨2048, 0, 0⟩⟩ (lba : Int) (2 * maxSectorLength) =
      ⟨2048, readBytes data (lba * 2048) 2048, none⟩ := by
  simp only [Image.ReadSector, Buffer.readAt]
  have hpos : ((lba : Int) * 2048 + 0 + 0) = ((lba * 2048 : Nat) : Int) := by
    push_cast
    ring
  rw [hpos]
  have hlen : min (2 * maxSectorLength) ((2048 : Int).toNat) = 2048 := by
    simp [maxSectorLength]
  rw [hlen]
  rw [if_neg (by omega)]
  rw [if_neg (by push_cast; omega)]
  rw [Int.toNat_natCast]
  have hn : min 2048 (size - lba * 2048) = 2048 := by omega
  rw [hn]
  rw [if_neg (by omega)]
  show (if ((2 * maxSectorLength : Nat) : Int) < 2048 then _
    else if 2048 < minSectorLength then _ else _) = _
  rw [if_neg (by simp [maxSectorLength])]
  rw [if_neg (by simp [minSectorLength])]

/-- `ReadSector` with the plain 2048-byte geometry fails with the underlying
end-of-data error once the sector extends past the end of the medium. -/
theorem readSector_plain_fail (data : Nat → Nat) (size lba : Nat)
    (h : size < (lba + 1) * 2048) :
    (Image.ReadSector ⟨⟨data, size⟩, ⟨2048, 0, 0⟩⟩ (lba : Int)
      (2 * maxSectorLength)).err = some .eof := by
  simp only [Image.ReadSector, Buffer.readAt]
  have hpos : ((lba : Int) * 2048 + 0 + 0) = ((lba * 2048 : Nat) : Int) := by
    push_cast
    ring
  rw [hpos]
  have hlen : min (2 * maxSectorLength) ((2048 : Int).toNat) = 2048 := by
    simp [maxSectorLength]
  rw [hlen]
  rw [if_neg (by omega)]
  by_cases hend : (size : Int) ≤ ((lba * 2048 : Nat) : Int)
  · rw [if_pos hend]
  · rw [if_neg hend]
    rw [Int.toNat_natCast]
    have hn : min 2048 (size - lba * 2048) = size - lba * 2048 := by
      push_cast at hend
      omega
    rw [hn]
    rw [if_pos (by push_cast at hend; omega)]

/-- The tail phase of the `File.ReadAt` loop: once the declared length is
exhausted (`doff + n = Length`) but the destination is not full, every
iteration clips its copy to zero bytes and the loop only stops when
`ReadSector` fails past the end of the medium, returning the bytes
accumulated so far unchanged. -/
theorem fileReadLoop_drain (data : Nat → Nat) (size : Nat)
    (pvd : primaryVolumeDescriptor) (fi : directory) (plen doff : Nat)
    (hbs : pvd.BlockSize = 2048) :
    ∀ (fuel lba n : Nat) (acc : List Nat),
    doff + n = fi.Length → n < plen → doff < fi.Length →
    size / 2048 < lba + fuel →
    fileReadLoop ⟨⟨data, size⟩, ⟨2048, 0, 0⟩⟩ pvd fi plen doff fuel (lba : Int) 0 n
      acc = acc := by
  intro fuel
  induction fuel with
  | zero =>
    intro lba n acc _ _ _ _
    rfl
  | succ fuel ih =>
    intro lba n acc h1 h2 h3 hf
    by_cases hread : (lba + 1) * 2048 ≤ size
    · simp only [fileReadLoop, readSector_plain data size lba hread, hbs,
        Int.toNat_ofNat, Nat.min_self, List.drop_zero, Nat.cast_zero, sub_zero]
      have hmin : (2048 ⊓ Int.toNat 2048) = 2048 := by decide
      rw [hmin]
      have hclip : (fi.Length : Int) - ((doff : Int) + (n : Int)) <
          ((2048 : Nat) : Int) := by
        push_cast
        omega
      rw [if_pos hclip]
      have hz : ((fi.Length : Int) - ((doff : Int) + (n : Int))).toNat = 0 := by omega
      rw [hz]
      simp only [Nat.add_zero, Nat.zero_add, Nat.sub_zero, List.take_zero,
        List.length_nil, Nat.min_zero, List.take_nil, List.append_nil]
      split_ifs with hb
      · rfl
      · have hcast : ((lba : Int) + 1) = ((lba + 1 : Nat) : Int) := by push_cast; ring
        rw [hcast]
        exact ih (lba + 1) n acc h1 h2 h3 (by omega)
    · simp only [fileReadLoop]
      rw [readSector_plain_fail data size lba (by omega)]

/-- The active phase of the `File.ReadAt` loop: starting anywhere inside the
file with the accumulated bytes being the prefix already copied, the loop
returns exactly the first `min plen (Length - doff)` bytes of the file
content past `doff`. -/
theorem fileReadLoop_main (data : Nat → Nat) (size LBA L : Nat)
    (pvd : primaryVolumeDescriptor) (fi : directory) (plen doff : Nat)
    (hbs : pvd.BlockSize = 2048)
    (hlen : fi.Length = L)
    (hfit : (LBA + (L + 2047) / 2048) * 2048 ≤ size) :
    ∀ (fuel lba s n : Nat),
    lba * 2048 + s = LBA * 2048 + doff + n →
    s < 2048 →
    n ≤ min plen (L - doff) →
    doff + n < L →
    size / 2048 + 1 < lba + fuel →
    fileReadLoop ⟨⟨data, size⟩, ⟨2048, 0, 0⟩⟩ pvd fi plen doff fuel (lba : Int) s n
      (readBytes data (LBA * 2048 + doff) n) =
      readBytes data (LBA * 2048 + doff) (min plen (L - doff)) := by
  intro fuel
  induction fuel with
  | zero =>
    intro lba s n hpos hs hn hdl hf
    exfalso
    omega
  | succ fuel ih =>
    intro lba s n hpos hs hn hdl hf
    have hread : (lba + 1) * 2048 ≤ size := by omega
    simp only [fileReadLoop, readSector_plain data size lba hread, hbs, hlen]
    have hmin : (2048 ⊓ Int.toNat 2048) = 2048 := by decide
    rw [hmin]
    have hcast1 : ((lba : Int) + 1) = ((lba + 1 : Nat) : Int) := by push_cast; ring
    by_cases hclip : (L : Int) - ((doff : Int) + (n : Int)) <
        ((2048 : Nat) : Int) - (s : Int)
    · rw [if_pos hclip]
      rw [show ((L : Int) - ((doff : Int) + (n : Int))).toNat = L - doff - n from
        by omega]
      rw [show s + (L - doff - n) - s = L - doff - n from by omega]
      rw [readBytes_drop data s 2048 (lba * 2048)]
      rw [show lba * 2048 + s = LBA * 2048 + doff + n from hpos]
      rw [readBytes_take data (L - doff - n) (2048 - s) (LBA * 2048 + doff + n)]
      rw [show min (L - doff - n) (2048 - s) = L - doff - n from by omega]
      rw [readBytes_length]
      rw [readBytes_take data (plen - n) (L - doff - n) (LBA * 2048 + doff + n)]
      rw [← readBytes_add data n (LBA * 2048 + doff)
        (min (plen - n) (L - doff - n))]
      by_cases hbrk : plen ≤ n + min (plen - n) (L - doff - n) ∨
          (L : Int) ≤ (doff : Int) + ((min (plen - n) (L - doff - n) : Nat) : Int)
      · rw [if_pos hbrk]
        congr 1
        rcases hbrk with hb | hb
        · omega
        · omega
      · rw [if_neg hbrk]
        push_neg at hbrk
        have hmR : min (plen - n) (L - doff - n) = L - doff - n := by omega
        rw [hmR]
        rw [hcast1]
        rw [fileReadLoop_drain data size pvd fi plen doff hbs fuel (lba + 1)
          (n + (L - doff - n))
          (readBytes data (LBA * 2048 + doff) (n + (L - doff - n)))
          (by omega) (by omega) (by omega) (by omega)]
        congr 1
        omega
    · rw [if_neg hclip]
      rw [readBytes_drop data s 2048 (lba * 2048)]
      rw [show lba * 2048 + s = LBA * 2048 + doff + n from hpos]
      rw [readBytes_take data (2048 - s) (2048 - s) (LBA * 2048 + doff + n)]
      rw [Nat.min_self]
      rw [readBytes_length]
      rw [readBytes_take data (plen - n) (2048 - s) (LBA * 2048 + doff + n)]
      rw [← readBytes_add data n (LBA * 2048 + doff) (min (plen - n) (2048 - s))]
      by_cases hbrk : plen ≤ n + min (plen - n) (2048 - s) ∨
          (L : Int) ≤ (doff : Int) + ((min (plen - n) (2048 - s) : Nat) : Int)
      · rw [if_pos hbrk]
        congr 1
        rcases hbrk with hb | hb
        · omega
        · omega
      · rw [if_neg hbrk]
        push_neg at hbrk
        have hm2 : min (plen - n) (2048 - s) = 2048 - s := by omega
        rw [hm2]
        rw [hcast1]
        by_cases hend : doff + (n + (2048 - s)) = L
        · rw [fileReadLoop_drain data size pvd fi plen doff hbs fuel (lba + 1)
            (n + (2048 - s))
            (readBytes data (LBA * 2048 + doff) (n + (2048 - s)))
            (by omega) (by omega) (by omega) (by omega)]
          congr 1
          omega
        · exact ih (lba + 1) 0 (n + (2048 - s)) (by omega) (by omega) (by omega)
            (by omega) (by omega)

/-- C3: on a medium holding the entry's blocks entirely (plain 2048-byte
geometry and block size), `readAt` on a non-directory entry of declared
length `L` backed by the content at blocks `LBA..` returns, at every offset
`doff < L`, exactly the corresponding content bytes
`content.drop doff |>.take plen` (so concatenating reads reconstructs the
content and the total returned never exceeds `L`), and at every offset
`doff ≥ L` it returns end-of-data with zero bytes. -/
theorem c3_readAt (data : Nat → Nat) (size LBA L doff plen fuel : Nat)
    (pvd : primaryVolumeDescriptor) (fi : directory)
    (hbs : pvd.BlockSize = 2048)
    (hdir : fi.Flags &&& 2 = 0)
    (hlba : fi.LBA = LBA)
    (hlen : fi.Length = L)
    (hfit : (LBA + (L + 2047) / 2048) * 2048 ≤ size)
    (hfuel : size / 2048 + 2 ≤ fuel) :
    (doff < L →
      File.ReadAt ⟨⟨data, size⟩, ⟨2048, 0, 0⟩⟩ pvd fi plen (doff : Int) fuel =
        .ok (((entryContent data LBA L).drop doff).take plen)) ∧
    (L ≤ doff →
      File.ReadAt ⟨⟨data, size⟩, ⟨2048, 0, 0⟩⟩ pvd fi plen (doff : Int) fuel =
        .error .eof) := by
  have hnd : fi.IsDir = false := by
    simp [directory.IsDir, hdir]
  constructor
  · intro hoff
    simp only [File.ReadAt, hnd, Bool.false_eq_true, if_false]
    rw [if_neg (by rw [hlen]; omega)]
    rw [if_neg (by omega)]
    rw [hbs, hlba]
    simp only [Int.toNat_natCast]
    rw [show (Int.toNat 2048) = 2048 from rfl]
    rw [show ((LBA : Int) + ((doff / 2048 : Nat) : Int)) =
      (((LBA + doff / 2048 : Nat)) : Int) from by push_cast; ring]
    rw [show ([] : List Nat) = readBytes data (LBA * 2048 + doff) 0 from rfl]
    rw [fileReadLoop_main data size LBA L pvd fi plen doff hbs hlen hfit fuel
      (LBA + doff / 2048) (doff % 2048) 0 (by omega) (by omega) (by omega)
      (by omega) (by omega)]
    rw [entryContent, readBytes_drop data doff L (LBA * 2048),
      readBytes_take data plen (L - doff) (LBA * 2048 + doff)]
  · intro hoff
    simp only [File.ReadAt, hnd, Bool.false_eq_true, if_false]
    rw [if_pos (by rw [hlen]; omega)]


/-- C3 witness: a 3000-byte file at block 1 of an 8192-byte medium, read at
offset 1000 with a 500-byte destination. -/
theorem c3_readAt_witness :
    File.ReadAt ⟨⟨c3data, 8192⟩, ⟨2048, 0, 0⟩⟩ c3pvd c3fi 500 ((1000 : Nat) : Int) 6 =
      .ok (((entryContent c3data 1 3000).drop 1000).take 500) :=
  (c3_readAt c3data 8192 1 3000 1000 500 6 c3pvd c3fi rfl (by decide) rfl rfl
    (by decide) (by decide)).1 (by decide)

/-- The scan loop of `findVolumes` succeeds when it reaches a terminator
sector, every earlier sector being readable, not a terminator, and (for
descriptor types 1/2) within the sector size. -/
theorem fvLoop_term (img : Image) :
    ∀ (fuel sector k : Nat) (pvd svd : primaryVolumeDescriptor),
    sector ≤ k → k < sector + fuel →
    (∀ j, sector ≤ j → j < k → sectorOK img j ∧ typeAt img j ≠ 255 ∧
      ((typeAt img j = 1 ∨ typeAt img j = 2) →
        blockSizeAt img j ≤ img.SectorSize)) →
    sectorOK img k → typeAt img k = 255 →
    ∃ out, findVolLoop img fuel (sector : Int) pvd svd = .ok out := by
  intro fuel
  induction fuel with
  | zero =>
    intro sector k pvd svd h1 h2 _ _ _
    omega
  | succ fuel ih =>
    intro sector k pvd svd h1 h2 hpre hk ht
    by_cases hsk : sector = k
    · subst hsk
      refine ⟨(pvd, svd), ?_⟩
      simp only [findVolLoop]
      rw [show (img.ReadSector (sector : Int) maxSectorLength).err = none from hk]
      have ht' : ((img.ReadSector (sector : Int) maxSectorLength).bytes.getD 0 0) =
          255 := ht
      rw [ht']
      norm_num
    · have hss := hpre sector (le_refl _) (by omega)
      simp only [findVolLoop]
      rw [show (img.ReadSector (sector : Int) maxSectorLength).err = none from hss.1]
      have hcast : ((sector : Int) + 1) = ((sector + 1 : Nat) : Int) := by push_cast; ring
      by_cases h12 : ((img.ReadSector (sector : Int) maxSectorLength).bytes.getD 0 0) = 1 ∨
          ((img.ReadSector (sector : Int) maxSectorLength).bytes.getD 0 0) = 2
      · rw [if_pos h12]
        rw [if_neg (by
          have := hss.2.2 h12
          simp only [blockSizeAt, Image.SectorSize] at this ⊢
          simp only [decodePVD]
          omega)]
        rw [hcast]
        exact ih (sector + 1) k _ _ (by omega) (by omega)
          (fun j hj1 hj2 => hpre j (by omega) hj2) hk ht
      · rw [if_neg h12]
        rw [if_neg (by exact hss.2.1)]
        rw [hcast]
        exact ih (sector + 1) k _ _ (by omega) (by omega)
          (fun j hj1 hj2 => hpre j (by omega) hj2) hk ht

/-- The scan loop fails with the missing-descriptor format error when every
scanned sector is readable but none is a terminator (nor block-size bad). -/
theorem fvLoop_noterm (img : Image) :
    ∀ (fuel sector : Nat) (pvd svd : primaryVolumeDescriptor),
    (∀ j, sector ≤ j → j < sector + fuel → sectorOK img j ∧ typeAt img j ≠ 255 ∧
      ((typeAt img j = 1 ∨ typeAt img j = 2) →
        blockSizeAt img j ≤ img.SectorSize)) →
    findVolLoop img fuel (sector : Int) pvd svd = .error .noPVD := by
  intro fuel
  induction fuel with
  | zero =>
    intro sector pvd svd _
    rfl
  | succ fuel ih =>
    intro sector pvd svd hpre
    have hss := hpre sector (le_refl _) (by omega)
    simp only [findVolLoop]
    rw [show (img.ReadSector (sector : Int) maxSectorLength).err = none from hss.1]
    have hcast : ((sector : Int) + 1) = ((sector + 1 : Nat) : Int) := by push_cast; ring
    by_cases h12 : ((img.ReadSector (sector : Int) maxSectorLength).bytes.getD 0 0) = 1 ∨
        ((img.ReadSector (sector : Int) maxSectorLength).bytes.getD 0 0) = 2
    · rw [if_pos h12]
      rw [if_neg (by
        have := hss.2.2 h12
        simp only [blockSizeAt, Image.SectorSize] at this ⊢
        simp only [decodePVD]
        omega)]
      rw [hcast]
      exact ih (sector + 1) _ _ (fun j hj1 hj2 => hpre j (by omega) (by omega))
    · rw [if_neg h12]
      rw [if_neg (by exact hss.2.1)]
      rw [hcast]
      exact ih (sector + 1) _ _ (fun j hj1 hj2 => hpre j (by omega) (by omega))

/-- The scan loop fails with the invalid-block-size format error when it
reaches a type 1/2 descriptor whose block size exceeds the sector size. -/
theorem fvLoop_badBlock (img : Image) :
    ∀ (fuel sector k : Nat) (pvd svd : primaryVolumeDescriptor),
    sector ≤ k → k < sector + fuel →
    (∀ j, sector ≤ j → j < k → sectorOK img j ∧ typeAt img j ≠ 255 ∧
      ((typeAt img j = 1 ∨ typeAt img j = 2) →
        blockSizeAt img j ≤ img.SectorSize)) →
    sectorOK img k → (typeAt img k = 1 ∨ typeAt img k = 2) →
    img.SectorSize < blockSizeAt img k →
    findVolLoop img fuel (sector : Int) pvd svd = .error .badBlockSize := by
  intro fuel
  induction fuel with
  | zero =>
    intro sector k pvd svd h1 h2 _ _ _ _
    omega
  | succ fuel ih =>
    intro sector k pvd svd h1 h2 hpre hk ht hbs
    by_cases hsk : sector = k
    · subst hsk
      simp only [findVolLoop]
      rw [show (img.ReadSector (sector : Int) maxSectorLength).err = none from hk]
      rw [if_pos (by exact ht)]
      rw [if_pos (by
        simp only [blockSizeAt, Image.SectorSize] at hbs ⊢
        simp only [decodePVD]
        omega)]
    · have hss := hpre sector (le_refl _) (by omega)
      simp only [findVolLoop]
      rw [show (img.ReadSector (sector : Int) maxSectorLength).err = none from hss.1]
      have hcast : ((sector : Int) + 1) = ((sector + 1 : Nat) : Int) := by push_cast; ring
      by_cases h12 : ((img.ReadSector (sector : Int) maxSectorLength).bytes.getD 0 0) = 1 ∨
          ((img.ReadSector (sector : Int) maxSectorLength).bytes.getD 0 0) = 2
      · rw [if_pos h12]
        rw [if_neg (by
          have := hss.2.2 h12
          simp only [blockSizeAt, Image.SectorSize] at this ⊢
          simp only [decodePVD]
          omega)]
        rw [hcast]
        exact ih (sector + 1) k _ _ (by omega) (by omega)
          (fun j hj1 hj2 => hpre j (by omega) hj2) hk ht hbs
      · rw [if_neg h12]
        rw [if_neg (by exact hss.2.1)]
        rw [hcast]
        exact ih (sector + 1) k _ _ (by omega) (by omega)
          (fun j hj1 hj2 => hpre j (by omega) hj2) hk ht hbs

/-- The scan loop returns success only by reaching a terminator sector. -/
theorem fvLoop_ok_terminator (img : Image) :
    ∀ (fuel sector : Nat) (pvd svd : primaryVolumeDescriptor)
      (out : primaryVolumeDescriptor × primaryVolumeDescriptor),
    findVolLoop img fuel (sector : Int) pvd svd = .ok out →
    ∃ k, sector ≤ k ∧ k < sector + fuel ∧ typeAt img k = 255 := by
  intro fuel
  induction fuel with
  | zero =>
    intro sector pvd svd out h
    exact Except.noConfusion h
  | succ fuel ih =>
    intro sector pvd svd out h
    simp only [findVolLoop] at h
    have hcast : ((sector : Int) + 1) = ((sector + 1 : Nat) : Int) := by push_cast; ring
    cases herr : (img.ReadSector (sector : Int) maxSectorLength).err with
    | some e =>
      rw [herr] at h
      exact Except.noConfusion h
    | none =>
      simp only [herr] at h
      by_cases h12 : ((img.ReadSector (sector : Int) maxSectorLength).bytes.getD 0 0) = 1 ∨
          ((img.ReadSector (sector : Int) maxSectorLength).bytes.getD 0 0) = 2
      · rw [if_pos h12] at h
        by_cases hbs : img.SectorSize <
            (decodePVD (img.ReadSector (sector : Int) maxSectorLength).bytes).BlockSize
        · rw [if_pos hbs] at h
          exact Except.noConfusion h
        · rw [if_neg hbs, hcast] at h
          obtain ⟨k, hk1, hk2, hk3⟩ := ih (sector + 1) _ _ out h
          exact ⟨k, by omega, by omega, hk3⟩
      · rw [if_neg h12] at h
        by_cases h255 :
            ((img.ReadSector (sector : Int) maxSectorLength).bytes.getD 0 0) = 255
        · exact ⟨sector, le_refl _, by omega, h255⟩
        · rw [if_neg h255, hcast] at h
          obtain ⟨k, hk1, hk2, hk3⟩ := ih (sector + 1) _ _ out h
          exact ⟨k, by omega, by omega, hk3⟩

/-- C5: `findVolumes` scans sectors from 16: it succeeds when a type-255
terminator is reached (every earlier sector readable, non-terminator, and
descriptor block sizes within the physical sector size); it fails with the
could-not-find-primary-volume format error when the medium ends (the sector
scan range is exhausted) before a terminator is found; it fails with the
invalid-block-size format error when a decoded primary/supplementary
descriptor's block size exceeds the physical sector size of the underlying
source; and it succeeds only by reaching a terminator. -/
theorem c5_findVolumes_terminator_and_errors :
    (∀ (img : Image) (k : Nat), 16 ≤ k → k < img.NumSectors →
      (∀ j, 16 ≤ j → j < k → sectorOK img j ∧ typeAt img j ≠ 255 ∧
        ((typeAt img j = 1 ∨ typeAt img j = 2) →
          blockSizeAt img j ≤ img.SectorSize)) →
      sectorOK img k → typeAt img k = 255 →
      ∃ out, findVolumes img = .ok out) ∧
    (∀ img : Image,
      (∀ j, 16 ≤ j → j < img.NumSectors → sectorOK img j ∧ typeAt img j ≠ 255 ∧
        ((typeAt img j = 1 ∨ typeAt img j = 2) →
          blockSizeAt img j ≤ img.SectorSize)) →
      findVolumes img = .error .noPVD) ∧
    (∀ (img : Image) (k : Nat), 16 ≤ k → k < img.NumSectors →
      (∀ j, 16 ≤ j → j < k → sectorOK img j ∧ typeAt img j ≠ 255 ∧
        ((typeAt img j = 1 ∨ typeAt img j = 2) →
          blockSizeAt img j ≤ img.SectorSize)) →
      sectorOK img k → (typeAt img k = 1 ∨ typeAt img k = 2) →
      img.SectorSize < blockSizeAt img k →
      findVolumes img = .error .badBlockSize) ∧
    (∀ (img : Image) (out : primaryVolumeDescriptor × primaryVolumeDescriptor),
      findVolumes img = .ok out →
      ∃ k, 16 ≤ k ∧ k < 16 + (img.NumSectors - 16) ∧ typeAt img k = 255) := by
  refine ⟨?_, ?_, ?_, ?_⟩
  · intro img k h1 h2 hpre hk ht
    obtain ⟨out, hout⟩ := fvLoop_term img (img.NumSectors - 16) 16 k _ _ h1
      (by omega) hpre hk ht
    exact ⟨out, by simpa [findVolumes] using hout⟩
  · intro img hpre
    have h := fvLoop_noterm img (img.NumSectors - 16) 16 .zero .zero
      (fun j hj1 hj2 => hpre j hj1 (by omega))
    simpa [findVolumes] using h
  · intro img k h1 h2 hpre hk ht hbs
    have h := fvLoop_badBlock img (img.NumSectors - 16) 16 k .zero .zero h1
      (by omega) hpre hk ht hbs
    simpa [findVolumes] using h
  · intro img out h
    exact fvLoop_ok_terminator img (img.NumSectors - 16) 16 .zero .zero out
      (by simpa [findVolumes] using h)

/-- C5 witness: the terminator branch applied to a concrete aligned medium
(primary descriptor at sector 16, terminator at sector 17). -/
theorem c5_findVolumes_terminator_and_errors_witness :
    ∃ out, findVolumes c5img = .ok out := by
  refine c5_findVolumes_terminator_and_errors.1 c5img 17 (by decide) (by decide)
    ?_ (by decide) (by decide)
  intro j hj1 hj2
  have hj : j = 16 := by omega
  subst hj
  exact ⟨by decide, by decide, fun _ => by decide⟩

/-- C7 counterexample: with 1000 bytes available at the physical offset of
sector 16 (fewer than 2048) and a full-sector destination, `ReadSector` does
not return the unexpected-end-of-data error the claim requires: the partial
underlying read reports plain end-of-data first, and that error is returned
as-is. -/
theorem c7_readSector_counterexample :
    (Image.ReadSector c7img 16 2048).err = some .eof ∧
    some Err.eof ≠ some Err.unexpectedEOF :=
  ⟨rfl, by decide⟩

/-- C7 (amended): `ReadSector` reads `min (len dest) sectorSize` bytes at
physical offset `lba*sectorSize + geometryStart + headerSkip`.  When that
many bytes are available there, it returns a short-buffer error exactly when
the destination is smaller than the sector size, and otherwise an
unexpected-end-of-data error exactly when fewer than 2048 bytes were read.
When fewer bytes than requested are available, the underlying read's own
end-of-data error is returned instead of the unexpected-end-of-data error
(and at an offset at or past the end of the medium, end-of-data with zero
bytes). -/
theorem c7_readSector_amended (m : Image) (lba pos : Int) (blen len : Nat)
    (hlen : len = min blen m.sector.size.toNat)
    (hpos : pos = lba * m.sector.size + m.sector.start + m.sector.offset) :
    (0 ≤ pos → pos + len ≤ (m.buf.size : Int) → pos < (m.buf.size : Int) →
      m.ReadSector lba blen =
        ⟨len, readBytes m.buf.data pos.toNat len,
          if (blen : Int) < m.sector.size then some .shortBuffer
          else if len < minSectorLength then some .unexpectedEOF
          else none⟩) ∧
    (0 ≤ pos → pos < (m.buf.size : Int) → (m.buf.size : Int) < pos + len →
      m.ReadSector lba blen =
        ⟨m.buf.size - pos.toNat,
          readBytes m.buf.data pos.toNat (m.buf.size - pos.toNat), some .eof⟩) ∧
    ((m.buf.size : Int) ≤ pos → m.ReadSector lba blen = ⟨0, [], some .eof⟩) := by
  simp only [Image.ReadSector, Buffer.readAt]
  rw [← hlen, ← hpos]
  refine ⟨?_, ?_, ?_⟩
  · intro h1 h2 h3
    rw [if_neg (show ¬ (pos < 0) by omega)]
    rw [if_neg (show ¬ ((m.buf.size : Int) ≤ pos) by omega)]
    have hn : min len (m.buf.size - pos.toNat) = len := by omega
    simp only [hn]
    rw [if_neg (show ¬ (len < len) by omega)]
    split_ifs <;> rfl
  · intro h1 h2 h3
    rw [if_neg (show ¬ (pos < 0) by omega)]
    rw [if_neg (show ¬ ((m.buf.size : Int) ≤ pos) by omega)]
    have hn : min len (m.buf.size - pos.toNat) = m.buf.size - pos.toNat := by omega
    simp only [hn]
    rw [if_pos (show m.buf.size - pos.toNat < len by omega)]
  · intro h1
    rw [if_neg (show ¬ (pos < 0) by omega)]
    rw [if_pos h1]

/-- Signed 64-bit wraparound is the identity on the int64 range. -/
theorem int64wrap_eq (x : Int) (h0 : 0 ≤ x) (h1 : x < 9223372036854775808) :
    int64wrap x = x := by
  unfold int64wrap
  omega

/-- The construction loop of `NewMultiFile`, when source `k` fails to open
after `i` files are already held (with the opened handles being exactly
`0..i-1`), closes every held file and surfaces the error; the size bound
keeps the int64 offset accumulation out of overflow. -/
theorem mfLoop_openFail (specs : List SourceSpec) :
    ∀ (k i : Nat) (files : List (List Nat)) (offs : List Int) (size : Int),
    (∀ j, j < k → (specs.getD j .openFail).isOk) →
    specs.getD k .openFail = .openFail →
    k < specs.length →
    files.length = i →
    0 ≤ offs.getLastD 0 →
    offs.getLastD 0 + ((specs.take k).map SourceSpec.sizeOf).sum <
      9223372036854775808 →
    newMultiFileLoop specs i files offs size (List.range i) =
      ⟨none, List.range (i + k), List.range (i + k)⟩ := by
  induction specs with
  | nil =>
    intro k i files offs size _ _ hk
    simp at hk
  | cons s rest ih =>
    intro k i files offs size hok hfail hk hfl hlast hbound
    match k with
    | 0 =>
      have hs : s = .openFail := hfail
      subst hs
      simp [newMultiFileLoop, hfl]
    | k' + 1 =>
      have hisok : s.isOk := hok 0 (by omega)
      cases s with
      | openFail => exact hisok.elim
      | statFail => exact hisok.elim
      | ok c =>
        have hbound' : offs.getLastD 0 + (c.length : Int) +
            (((rest.take k').map SourceSpec.sizeOf).sum : Int) <
            9223372036854775808 := by
          have he : ((SourceSpec.ok c :: rest).take (k' + 1)).map SourceSpec.sizeOf =
              c.length :: (rest.take k').map SourceSpec.sizeOf := by
            simp [SourceSpec.sizeOf]
          rw [he] at hbound
          simp only [List.sum_cons] at hbound
          push_cast at hbound ⊢
          omega
        have hofi : (if i = 0 then (0 : Int)
            else int64wrap (offs.getLastD 0 + c.length)) =
            if i = 0 then 0 else offs.getLastD 0 + c.length := by
          by_cases hi : i = 0
          · simp [hi]
          · simp only [hi, if_false]
            exact int64wrap_eq _ (by omega) (by omega)
        simp only [newMultiFileLoop, hofi]
        rw [if_neg (by split_ifs with hi <;> omega)]
        rw [← List.range_succ]
        have := ih k' (i + 1) (files ++ [c])
          (offs ++ [if i = 0 then (0 : Int) else offs.getLastD 0 + c.length])
          (int64wrap (size + c.length))
          (fun j hj => hok (j + 1) (by omega))
          (by simpa using hfail) (by simp at hk; omega) (by simp [hfl]) ?hl ?hb
        · rw [show i + 1 + k' = i + (k' + 1) by omega] at this
          exact this
        case hl =>
          rw [List.getLastD_concat]
          split_ifs with hi <;> omega
        case hb =>
          rw [List.getLastD_concat]
          split_ifs with hi <;> omega

/-- The construction loop of `NewMultiFile` succeeds when every source opens,
holding every file and closing none. -/
theorem mfLoop_allOk (specs : List SourceSpec) :
    ∀ (i : Nat) (files : List (List Nat)) (offs : List Int) (size : Int),
    (∀ j, j < specs.length → (specs.getD j .openFail).isOk) →
    files.length = i →
    0 ≤ offs.getLastD 0 →
    offs.getLastD 0 + (specs.map SourceSpec.sizeOf).sum < 9223372036854775808 →
    ∃ mf : MultiFile,
      newMultiFileLoop specs i files offs size (List.range i) =
        ⟨some mf, List.range (i + specs.length), []⟩ ∧
      mf.files.length = i + specs.length := by
  induction specs with
  | nil =>
    intro i files offs size _ hfl _ _
    exact ⟨⟨files, offs, size, 0⟩, rfl, by simpa using hfl⟩
  | cons s rest ih =>
    intro i files offs size hok hfl hlast hbound
    have hisok : s.isOk := hok 0 (by simp)
    cases s with
    | openFail => exact hisok.elim
    | statFail => exact hisok.elim
    | ok c =>
      have hbound' : offs.getLastD 0 + (c.length : Int) +
          ((rest.map SourceSpec.sizeOf).sum : Int) < 9223372036854775808 := by
        simp only [List.map_cons, List.sum_cons, SourceSpec.sizeOf] at hbound
        push_cast at hbound ⊢
        omega
      have hofi : (if i = 0 then (0 : Int)
          else int64wrap (offs.getLastD 0 + c.length)) =
          if i = 0 then 0 else offs.getLastD 0 + c.length := by
        by_cases hi : i = 0
        · simp [hi]
        · simp only [hi, if_false]
          exact int64wrap_eq _ (by omega) (by omega)
      simp only [newMultiFileLoop, hofi]
      rw [if_neg (by split_ifs with hi <;> omega)]
      rw [← List.range_succ]
      have hl2 : 0 ≤ (offs ++
          [if i = 0 then (0 : Int) else offs.getLastD 0 + c.length]).getLastD 0 := by
        rw [List.getLastD_concat]
        split_ifs with hi <;> omega
      have hb2 : (offs ++
          [if i = 0 then (0 : Int) else offs.getLastD 0 + c.length]).getLastD 0 +
          ((rest.map SourceSpec.sizeOf).sum : Int) < 9223372036854775808 := by
        rw [List.getLastD_concat]
        split_ifs with hi <;> omega
      obtain ⟨mf, heq, hlen⟩ := ih (i + 1) (files ++ [c])
        (offs ++ [if i = 0 then (0 : Int) else offs.getLastD 0 + c.length])
        (int64wrap (size + c.length))
        (fun j hj => hok (j + 1) (by simp; omega))
        (by simp [hfl]) hl2 hb2
      refine ⟨mf, ?_, ?_⟩
      · rw [heq]
        simp [show i + 1 + rest.length = i + (rest.length + 1) by omega]
      · simp only [List.length_cons]
        omega

/-- C8: if opening the k-th source fails during construction (all earlier
sources having opened successfully, with total size within int64), every
already-opened source `0..k-1` is closed before the error is surfaced; and
when every source opens, construction succeeds without closing anything and
`Close` on the result closes every underlying source. -/
theorem c8_construction_cleanup_and_close :
    (∀ (specs : List SourceSpec) (k : Nat),
      (∀ j, j < k → (specs.getD j .openFail).isOk) →
      specs.getD k .openFail = .openFail →
      k < specs.length →
      (((specs.take k).map SourceSpec.sizeOf).sum : Int) < 9223372036854775808 →
      NewMultiFile specs = ⟨none, List.range k, List.range k⟩) ∧
    (∀ specs : List SourceSpec,
      (∀ j, j < specs.length → (specs.getD j .openFail).isOk) →
      ((specs.map SourceSpec.sizeOf).sum : Int) < 9223372036854775808 →
      ∃ mf : MultiFile,
        NewMultiFile specs = ⟨some mf, List.range specs.length, []⟩ ∧
        mf.CloseAll = List.range specs.length) := by
  constructor
  · intro specs k hok hf hk hb
    have h := mfLoop_openFail specs k 0 [] [] 0 hok hf hk rfl (by simp)
      (by simpa using hb)
    simpa [NewMultiFile] using h
  · intro specs hok hb
    obtain ⟨mf, heq, hlen⟩ := mfLoop_allOk specs 0 [] [] 0 hok rfl (by simp)
      (by simpa using hb)
    refine ⟨mf, by simpa [NewMultiFile, Nat.zero_add] using heq, ?_⟩
    simp only [MultiFile.CloseAll]
    rw [hlen]
    simp

/-- C8 witness: the cleanup branch applied to two good sources followed by a
failing open: both already-opened files are closed. -/
theorem c8_construction_cleanup_and_close_witness :
    NewMultiFile [.ok [1], .ok [2, 3], .openFail] =
      ⟨none, List.range 2, List.range 2⟩ :=
  c8_construction_cleanup_and_close.1 [.ok [1], .ok [2, 3], .openFail] 2
    (by decide) rfl (by decide) (by decide)

/-- C7 witness: the partial-read branch of the amended theorem applied to the
truncated medium `c7img` (1000 of 2048 bytes available at sector 16). -/
theorem c7_readSector_amended_witness :
    Image.ReadSector c7img 16 2048 =
      ⟨c7img.buf.size - (32768 : Int).toNat,
        readBytes c7img.buf.data (32768 : Int).toNat
          (c7img.buf.size - (32768 : Int).toNat),
        some .eof⟩ :=
  (c7_readSector_amended c7img 16 32768 2048 2048 (by decide) (by decide)).2.1
    (by decide) (by decide) (by decide)

end Iso
